import Mathlib

/-!
Shallow embedding of the order-composition / submission workflow and the
admin order-lifecycle / CSV-export components of the b2b_store repository.

Sources embedded (component-level view state and its pure transition logic):
  * `src/pages/customer/CustomerDashboard.tsx` — catalog selection model,
    order item projection, submission workflow, order-history sorting.
  * `src/pages/admin/AdminOrders.tsx` — status change handler and CSV export.
  * `src/services/api.ts` — `createOrder` request body construction.

Conventions of the embedding:
  * TS `number` quantities coming from `parseInt` are modelled as `Int`
    (negative parses are representable); server-supplied `totalItems` is `Nat`.
  * JS objects used as string-keyed maps (`selections`, `quantities`) are
    modelled as insertion-ordered association lists `List (String × α)`;
    `{ ...prev, [k]: v }` replaces in place when the key exists, else appends.
  * Asynchronous collaborator calls are modelled by passing the call's result
    (`Except String Order`) as an explicit argument and recording the issued
    request / emitted toasts in the function's output, so that "invokes the
    collaborator" is an inspectable fact.
  * Fields of the TS interfaces that no embedded function reads
    (`description`, `imageUrl`, `price`, `createdAt` on Product) are omitted.
-/

/-- A calendar timestamp. `time` is the epoch-milliseconds value observed by
`new Date(x).getTime()`; `year`/`month`/`day` are the calendar fields read by
`format(date, 'yyyy-MM-dd')`. The two views are kept side by side because the
embedded code only ever compares `time` or formats `year-month-day`. -/
structure DateTime where
  time : Nat
  year : Nat
  month : Nat
  day : Nat
deriving DecidableEq, Repr

/-- `Product` from `src/types/index.ts` (fields unused by the embedded
functions omitted). `sizesInNumber` is normalized to `[]` when absent, as
`mapProduct` in `src/services/api.ts` does. -/
structure Product where
  id : String
  name : String
  styleNumber : String
  colors : List String
  sizes : List String
  sizesInNumber : List Nat
deriving DecidableEq, Repr

/-- `OrderItem` from `src/types/index.ts`. -/
structure OrderItem where
  productId : String
  productName : String
  styleNumber : String
  color : String
  size : String
  quantity : Int
deriving DecidableEq, Repr

/-- `Order` from `src/types/index.ts`. `status` is one of the five status
strings at runtime; it is carried as a `String` exactly as the TS value is. -/
structure Order where
  id : String
  customerId : String
  customerName : String
  customerEmail : String
  poNumber : String
  items : List OrderItem
  status : String
  totalItems : Nat
  createdAt : DateTime
deriving DecidableEq, Repr

/-- `ProductSelection` from `CustomerDashboard.tsx`: per-product cart entry.
`quantities` is the JS object `Record<string, number>` as an
insertion-ordered association list. -/
structure ProductSelection where
  productId : String
  productName : String
  styleNumber : String
  selectedColor : String
  quantities : List (String × Int)
deriving DecidableEq, Repr

/-- The `selections` state: JS object keyed by product id. -/
abbrev Selections := List (String × ProductSelection)

/-- Lookup in an insertion-ordered string-keyed object (first binding wins;
keys are unique by construction via `setKey`). -/
def lookupKey {α : Type} : List (String × α) → String → Option α
  | [], _ => none
  | (k, v) :: rest, q => if k = q then some v else lookupKey rest q

/-- `{ ...prev, [k]: v }` on a JS object: replace the binding in place when
the key is present, else append the new binding. -/
def setKey {α : Type} (m : List (String × α)) (k : String) (v : α) : List (String × α) :=
  if m.any (fun p => p.1 = k) then
    m.map (fun p => if p.1 = k then (k, v) else p)
  else
    m ++ [(k, v)]

/-- Leading decimal digits of a character list, `none` when the first
character is not a digit (the `NaN` case of `parseInt`). -/
def leadingNat : List Char → Option Nat
  | cs =>
    let ds := cs.takeWhile (fun c => c.isDigit)
    if ds.isEmpty then none
    else some (ds.foldl (fun n c => n * 10 + (c.toNat - '0'.toNat)) 0)

/-- JS whitespace test for the characters that occur in form input. -/
def isJsWhitespace (c : Char) : Bool :=
  c = ' ' || c = '\t' || c = '\n' || c = '\r'

/-- The decimal fragment of JS `parseInt(value)`: skip leading whitespace,
read an optional sign and leading digits, ignore trailing garbage; `none`
models `NaN`. (The hexadecimal `0x` prefix form is irrelevant to numeric
form inputs and is not modelled.) -/
def parseIntJS (s : String) : Option Int :=
  match s.data.dropWhile isJsWhitespace with
  | '-' :: rest => (leadingNat rest).map (fun n => -(n : Int))
  | '+' :: rest => (leadingNat rest).map (fun n => (n : Int))
  | cs => (leadingNat cs).map (fun n => (n : Int))

/-- `parseInt(value) || 0` from `handleQuantityChange`: `NaN` coerces to 0
(and a parsed 0 stays 0, so `getD 0` also covers the falsy-zero case). -/
def parseIntOrZero (s : String) : Int :=
  (parseIntJS s).getD 0

/-- JS `String.prototype.trim()`: strip whitespace from both ends. -/
def trimJS (s : String) : String :=
  String.mk (((s.data.dropWhile isJsWhitespace).reverse.dropWhile isJsWhitespace).reverse)

/-- `handleColorChange` (`CustomerDashboard.tsx` lines 111–122): write a
selection for `product.id` with the chosen color, `styleNumber` taken from
the product, and `quantities` preserved from the previous selection
(`prev[product.id]?.quantities || {}`). -/
def handleColorChange (product : Product) (color : String) (sels : Selections) : Selections :=
  setKey sels product.id
    { productId := product.id
      productName := product.name
      styleNumber := product.styleNumber
      selectedColor := color
      quantities := ((lookupKey sels product.id).map ProductSelection.quantities).getD [] }

/-- The default selection built inline by `handleQuantityChange` when no
selection exists yet for the product. -/
def defaultSelection (product : Product) : ProductSelection :=
  { productId := product.id
    productName := product.name
    styleNumber := product.styleNumber
    selectedColor := product.colors.headD ""
    quantities := [] }

/-- `handleQuantityChange` (`CustomerDashboard.tsx` lines 124–140): parse the
raw input (`parseInt(value) || 0`), then store it under the size key in the
(possibly freshly created) selection for the product. -/
def handleQuantityChange (product : Product) (size : String) (value : String)
    (sels : Selections) : Selections :=
  let qty := parseIntOrZero value
  let currentSelection := (lookupKey sels product.id).getD (defaultSelection product)
  setKey sels product.id
    { currentSelection with quantities := setKey currentSelection.quantities size qty }

/-- `handleQuantityChangeForSizeInNumber` (lines 142–158): identical, with a
numeric size label used as the (stringified) object key. -/
def handleQuantityChangeForSizeInNumber (product : Product) (size : Nat) (value : String)
    (sels : Selections) : Selections :=
  handleQuantityChange product (toString size) value sels

/-- `handleRemoveProduct` (lines 183–189): `delete updated[productId]`
removes the binding, preserving the order of the rest. -/
def handleRemoveProduct (productId : String) (sels : Selections) : Selections :=
  sels.filter (fun p => p.1 ≠ productId)

/-- The style number used for a selection's emitted items
(`selection.styleNumber || product?.styleNumber || ''`, line 164): the
selection's own style number unless it is blank, else the live product's,
else the empty string. -/
def styleOf (products : List Product) (sel : ProductSelection) : String :=
  if sel.styleNumber = "" then
    ((products.find? (fun p => p.id = sel.productId)).map Product.styleNumber).getD ""
  else sel.styleNumber

/-- Inner loop of `getOrderItems` (lines 165–176): for each `(size, qty)`
entry in order, push one item when `qty > 0`. The accumulator mirrors the
imperative `items.push`. -/
def pushItems (sel : ProductSelection) (style : String) :
    List (String × Int) → List OrderItem → List OrderItem
  | [], items => items
  | (size, qty) :: rest, items =>
    pushItems sel style rest
      (if 0 < qty then
        items ++ [{ productId := sel.productId
                    productName := sel.productName
                    styleNumber := style
                    color := sel.selectedColor
                    size := size
                    quantity := qty }]
      else items)

/-- Outer loop of `getOrderItems` (lines 160–179): iterate the selections in
order, resolving the style fallback per selection. -/
def getOrderItemsLoop (products : List Product) :
    Selections → List OrderItem → List OrderItem
  | [], items => items
  | (_, sel) :: rest, items =>
    getOrderItemsLoop products rest (pushItems sel (styleOf products sel) sel.quantities items)

/-- `getOrderItems` (`CustomerDashboard.tsx` lines 160–179). -/
def getOrderItems (products : List Product) (sels : Selections) : List OrderItem :=
  getOrderItemsLoop products sels []

/-- `totalItems` (line 181): `getOrderItems().reduce((sum, item) => sum +
item.quantity, 0)`. -/
def totalItemsOf (products : List Product) (sels : Selections) : Int :=
  (getOrderItems products sels).foldl (fun sum item => sum + item.quantity) 0

/-- A JSON value appearing in the `createOrder` request body. -/
inductive BodyVal where
  | s (v : String)
  | n (v : Int)
  | items (v : List OrderItem)
deriving DecidableEq, Repr

/-- The serialized `createOrder` request body (`src/services/api.ts` lines
192–199): `JSON.stringify` of an object literal with, in this order, the
fields `poNumber`, `totalItems` (the sum of the submitted items'
quantities, computed in the API layer), and `items`. -/
def createOrderBody (poNumber : String) (items : List OrderItem) : List (String × BodyVal) :=
  [ ("poNumber", BodyVal.s poNumber),
    ("totalItems", BodyVal.n (items.foldl (fun sum i => sum + i.quantity) 0)),
    ("items", BodyVal.items items) ]

/-- A toast notification emitted by a handler. -/
inductive Toast where
  | error (msg : String)
  | success (msg : String)
deriving DecidableEq, Repr

/-- The submission-relevant slice of the `CustomerDashboard` component
state. -/
structure DashState where
  selections : Selections
  poNumber : String
  poError : String
  isSubmitting : Bool
  lastOrderId : String
  lastPoNumber : String
  showConfirmation : Bool
deriving DecidableEq, Repr

/-- Observable outcome of one run of `handleSubmitOrder`: the post state,
the request body handed to the order-creation collaborator (`none` when the
collaborator was not invoked), and the toasts emitted. -/
structure SubmitOutcome where
  state : DashState
  request : Option (List (String × BodyVal))
  toasts : List Toast
deriving DecidableEq, Repr

/-- `handleSubmitOrder` (`CustomerDashboard.tsx` lines 191–219). Validation:
a zero projected total toasts an error and returns; a blank (trimmed) PO
number sets the field error and returns; in both cases no collaborator call
is made. Otherwise `createOrder` is invoked with the trimmed PO number and
the projected items; `result` is the collaborator's response. On success the
selections and PO number are cleared and the confirmation recorded; on
failure only a toast is emitted (the message, or a generic one when it is
empty, mirroring `err.message || '...'`). `isSubmitting` ends `false` via
the `finally` block. -/
def handleSubmitOrder (products : List Product) (st : DashState)
    (result : Except String Order) : SubmitOutcome :=
  if totalItemsOf products st.selections = 0 then
    { state := st
      request := none
      toasts := [Toast.error "Please add quantities to at least one product"] }
  else if trimJS st.poNumber = "" then
    { state := { st with poError := "PO Number is required" }
      request := none
      toasts := [] }
  else
    let req := createOrderBody (trimJS st.poNumber) (getOrderItems products st.selections)
    match result with
    | Except.ok order =>
      { state := { st with
          lastOrderId := order.id
          lastPoNumber := st.poNumber
          selections := []
          poNumber := ""
          poError := ""
          showConfirmation := true
          isSubmitting := false }
        request := some req
        toasts := [Toast.success "Order placed successfully!"] }
    | Except.error msg =>
      { state := { st with isSubmitting := false }
        request := some req
        toasts := [Toast.error (if msg = "" then "Failed to place order" else msg)] }

/-- Stable descending insertion by `createdAt` time: the new element is
placed before the first element whose time is less than or equal to its
own, so every element already placed that ties with it stays in front. -/
def insertDesc (o : Order) : List Order → List Order
  | [] => [o]
  | x :: xs =>
    if x.createdAt.time ≤ o.createdAt.time then o :: x :: xs
    else x :: insertDesc o xs

/-- `data.sort((a, b) => new Date(b.createdAt).getTime() - new
Date(a.createdAt).getTime())` (`CustomerDashboard.tsx` line 88):
`Array.prototype.sort` is stable (ES2019) and, with this consistent
comparator, its observable result is the unique stable descending-by-time
arrangement, which this structural insertion sort computes. -/
def sortByCreatedAtDesc : List Order → List Order
  | [] => []
  | x :: xs => insertDesc x (sortByCreatedAtDesc xs)

/-- `loadOrders` (`CustomerDashboard.tsx` lines 83–95): store the fetched
orders sorted newest first. -/
def loadOrders (fetched : List Order) : List Order :=
  sortByCreatedAtDesc fetched

/-- The order-list slice of the `AdminOrders` component state: the in-memory
list and the order shown in the detail dialog, if any. -/
structure AdminState where
  orders : List Order
  selectedOrder : Option Order
deriving DecidableEq, Repr

/-- An observable effect of an `AdminOrders` handler. `apiUpdateStatus`
marks an invocation of the `updateOrderStatus` collaborator
(`src/services/api.ts` lines 203–212). -/
inductive AdminEffect where
  | apiUpdateStatus (id : String) (status : String)
  | toastSuccess (msg : String)
  | toastError (msg : String)
deriving DecidableEq, Repr

/-- Whether an effect is a collaborator (API) call. -/
def AdminEffect.isApi : AdminEffect → Bool
  | AdminEffect.apiUpdateStatus _ _ => true
  | _ => false

/-- `handleStatusChange` (`AdminOrders.tsx` lines 30–38): map over the list
replacing the status of the order whose id matches, update the open detail
view when its id matches, and toast success. The function is synchronous
and makes no collaborator call. -/
def handleStatusChange (st : AdminState) (orderId : String) (newStatus : String) :
    AdminState × List AdminEffect :=
  let orders := st.orders.map (fun o => if o.id = orderId then { o with status := newStatus } else o)
  let selectedOrder :=
    match st.selectedOrder with
    | some sel => if sel.id = orderId then some { sel with status := newStatus } else some sel
    | none => none
  (⟨orders, selectedOrder⟩, [AdminEffect.toastSuccess "Order status updated successfully"])

/-- Left zero-pad of a numeral to two digits (date-fns `MM` / `dd`). -/
def pad2 (n : Nat) : String :=
  if n < 10 then "0" ++ toString n else toString n

/-- Left zero-pad of a numeral to four digits (date-fns `yyyy`). -/
def pad4 (n : Nat) : String :=
  if n < 10 then "000" ++ toString n
  else if n < 100 then "00" ++ toString n
  else if n < 1000 then "0" ++ toString n
  else toString n

/-- `format(date, 'yyyy-MM-dd')` from date-fns. -/
def formatYMD (d : DateTime) : String :=
  pad4 d.year ++ "-" ++ pad2 d.month ++ "-" ++ pad2 d.day

/-- JS `Array.prototype.join(sep)`. -/
def joinWith (sep : String) : List String → String
  | [] => ""
  | [x] => x
  | x :: xs => x ++ sep ++ joinWith sep xs

/-- The fixed CSV header fields (`AdminOrders.tsx` line 48). -/
def csvHeaders : List String :=
  ["Order ID", "Customer", "PO Number", "Items", "Status", "Date"]

/-- One CSV row's fields for an order (`AdminOrders.tsx` lines 49–56):
id, customer name, PO number, total items, status, date as `yyyy-MM-dd`. -/
def orderRowFields (o : Order) : List String :=
  [o.id, o.customerName, o.poNumber, toString o.totalItems, o.status, formatYMD o.createdAt]

/-- `csvContent` (`AdminOrders.tsx` lines 58–61): the comma-joined header
followed by the comma-joined rows, all newline-joined. Fields are used
verbatim — no quoting or escaping is applied. -/
def csvContent (filteredOrders : List Order) : String :=
  joinWith "\n"
    (joinWith "," csvHeaders ::
      filteredOrders.map (fun o => joinWith "," (orderRowFields o)))

/-- Split a character list on newline characters (for stating line counts
of the produced CSV text). -/
def splitNl : List Char → List (List Char)
  | [] => [[]]
  | c :: cs =>
    if c = '\n' then [] :: splitNl cs
    else
      match splitNl cs with
      | [] => [[c]]
      | x :: xs => (c :: x) :: xs

/-- The lines of a string (split on the newline character). -/
def linesOf (s : String) : List String :=
  (splitNl s.data).map String.mk

/-- The explicit projected-items form that `getOrderItems` is proved equal
to: one item per `(size, qty)` entry with `qty > 0`, carrying the
selection's identity fields and the resolved style number. -/
def projectedOf (products : List Product) (sel : ProductSelection) : List OrderItem :=
  (sel.quantities.filter (fun sq => 0 < sq.2)).map (fun sq =>
    { productId := sel.productId
      productName := sel.productName
      styleNumber := styleOf products sel
      color := sel.selectedColor
      size := sq.1
      quantity := sq.2 })

/-- Concrete catalog product used by the witnesses. -/
def productP1 : Product :=
  { id := "P1", name := "Classic Polo", styleNumber := "ST-100",
    colors := ["navy", "white"], sizes := ["S", "M", "L"], sizesInNumber := [] }

/-- Concrete selection of 5 pieces of size M of `productP1`. -/
def selP1 : ProductSelection :=
  { productId := "P1", productName := "Classic Polo", styleNumber := "ST-100",
    selectedColor := "navy", quantities := [("M", 5)] }

/-- Concrete selection whose quantities are all zero. -/
def selAllZero : ProductSelection :=
  { productId := "P1", productName := "Classic Polo", styleNumber := "ST-100",
    selectedColor := "navy", quantities := [("S", 0), ("M", 0)] }

/-- The order item projected from `selP1`. -/
def itemC1 : OrderItem :=
  { productId := "P1", productName := "Classic Polo", styleNumber := "ST-100",
    color := "navy", size := "M", quantity := 5 }

/-- Concrete pre-submit dashboard state: one selection, PO number filled in. -/
def stC1 : DashState :=
  { selections := [("P1", selP1)], poNumber := "PO-100", poError := "",
    isSubmitting := false, lastOrderId := "", lastPoNumber := "",
    showConfirmation := false }

/-- Concrete pre-submit state with no selections. -/
def stNoItems : DashState :=
  { selections := [], poNumber := "PO-100", poError := "",
    isSubmitting := false, lastOrderId := "", lastPoNumber := "",
    showConfirmation := false }

/-- Concrete pre-submit state with items but a whitespace-only PO number. -/
def stBlankPo : DashState :=
  { selections := [("P1", selP1)], poNumber := "   ", poError := "",
    isSubmitting := false, lastOrderId := "", lastPoNumber := "",
    showConfirmation := false }

/-- Selection state reached by typing 5 for size M and -3 for size S
(the explicit-negative-input edge case). -/
def selsC10 : Selections :=
  handleQuantityChange productP1 "S" "-3"
    (handleQuantityChange productP1 "M" "5" [])

/-- The selection stored in `selsC10`, with the negative quantity kept
unclamped. -/
def selC10stored : ProductSelection :=
  { productId := "P1", productName := "Classic Polo", styleNumber := "ST-100",
    selectedColor := "navy", quantities := [("M", 5), ("S", -3)] }

/-- The selection record `handleColorChange` writes for product `p` with
color `color` and quantities `qs` (identity fields from the product, the
chosen color, and the given quantities). -/
def colorChangedSelection (p : Product) (color : String) (qs : List (String × Int)) :
    ProductSelection :=
  { productId := p.id, productName := p.name, styleNumber := p.styleNumber,
    selectedColor := color, quantities := qs }

/-- Timestamps for the order-history sorting example (2024-01-01,
2024-03-01, 2024-02-01, with their epoch-millisecond times). -/
def dateT1 : DateTime := { time := 1704067200000, year := 2024, month := 1, day := 1 }

/-- Timestamp 2024-03-01. -/
def dateT2 : DateTime := { time := 1709251200000, year := 2024, month := 3, day := 1 }

/-- Timestamp 2024-02-01. -/
def dateT3 : DateTime := { time := 1706745600000, year := 2024, month := 2, day := 1 }

/-- Order created at T1 = 2024-01-01. -/
def orderT1 : Order :=
  { id := "ORD-1", customerId := "C1", customerName := "Acme Corp",
    customerEmail := "orders@acme.test", poNumber := "PO-1", items := [],
    status := "pending", totalItems := 3, createdAt := dateT1 }

/-- Order created at T2 = 2024-03-01. -/
def orderT2 : Order :=
  { id := "ORD-2", customerId := "C1", customerName := "Acme Corp",
    customerEmail := "orders@acme.test", poNumber := "PO-2", items := [],
    status := "pending", totalItems := 7, createdAt := dateT2 }

/-- Order created at T3 = 2024-02-01. -/
def orderT3 : Order :=
  { id := "ORD-3", customerId := "C1", customerName := "Acme Corp",
    customerEmail := "orders@acme.test", poNumber := "PO-3", items := [],
    status := "pending", totalItems := 5, createdAt := dateT3 }

/-- The order returned by the collaborator in the successful-submission
witnesses. -/
def orderReturned : Order :=
  { id := "ORD-100", customerId := "C1", customerName := "Acme Corp",
    customerEmail := "orders@acme.test", poNumber := "PO-100",
    items := [itemC1], status := "pending", totalItems := 5, createdAt := dateT1 }

/-- A pending order in the admin list. -/
def orderPendingC2 : Order :=
  { id := "o1", customerId := "C1", customerName := "Acme Corp",
    customerEmail := "orders@acme.test", poNumber := "PO-9", items := [],
    status := "pending", totalItems := 3, createdAt := dateT1 }

/-- Concrete admin state: one pending order, no detail view open. -/
def adminStC2 : AdminState := { orders := [orderPendingC2], selectedOrder := none }

/-- Concrete order for the CSV-export witness (status pending). -/
def orderCsvA : Order :=
  { id := "ORD-200", customerId := "C1", customerName := "Acme Corp",
    customerEmail := "orders@acme.test", poNumber := "PO-7", items := [],
    status := "pending", totalItems := 12,
    createdAt := { time := 1709769600000, year := 2024, month := 3, day := 7 } }

/-- Concrete order for the CSV-export witness (status shipped, with a comma
inside the customer name to exercise the no-escaping behavior). -/
def orderCsvB : Order :=
  { id := "ORD-201", customerId := "C2", customerName := "Blue, Inc",
    customerEmail := "po@blue.test", poNumber := "PO-8", items := [],
    status := "shipped", totalItems := 4,
    createdAt := { time := 1732320000000, year := 2024, month := 11, day := 23 } }



/-! ## Helper lemmas -/

/-- The imperative push loop over one selection's quantity entries equals
appending the filter-then-map of those entries. -/
theorem pushItems_eq (sel : ProductSelection) (style : String)
    (qs : List (String × Int)) (items : List OrderItem) :
    pushItems sel style qs items =
      items ++ (qs.filter (fun sq => 0 < sq.2)).map (fun sq =>
        { productId := sel.productId
          productName := sel.productName
          styleNumber := style
          color := sel.selectedColor
          size := sq.1
          quantity := sq.2 }) := by
  induction qs generalizing items with
  | nil => simp [pushItems]
  | cons head tail ih =>
    obtain ⟨size, qty⟩ := head
    by_cases h : 0 < qty
    · simp [pushItems, h, ih, List.filter_cons]
    · simp [pushItems, h, ih, List.filter_cons]

/-- The outer loop of `getOrderItems` appends, selection by selection, the
projected items of each selection. -/
theorem getOrderItemsLoop_eq (products : List Product) (sels : Selections)
    (items : List OrderItem) :
    getOrderItemsLoop products sels items =
      items ++ (sels.map (fun ks => projectedOf products ks.2)).flatten := by
  induction sels generalizing items with
  | nil => simp [getOrderItemsLoop]
  | cons head rest ih =>
    obtain ⟨k, sel⟩ := head
    simp [getOrderItemsLoop, ih, pushItems_eq, projectedOf]

/-- `getOrderItems` is the concatenation of each selection's projected
items, in selection order. -/
theorem getOrderItems_eq (products : List Product) (sels : Selections) :
    getOrderItems products sels =
      (sels.map (fun ks => projectedOf products ks.2)).flatten := by
  simpa using getOrderItemsLoop_eq products sels []

/-- Folding quantity addition from an arbitrary start equals the start plus
the mapped sum. -/
theorem foldl_add_quantity (l : List OrderItem) (a : Int) :
    l.foldl (fun sum item => sum + item.quantity) a = a + (l.map OrderItem.quantity).sum := by
  induction l generalizing a with
  | nil => simp
  | cons x xs ih => simp [ih, add_assoc]


/-- Unfolding of `lookupKey` at a cons cell with an unstructured pair. -/
theorem lookupKey_cons {α : Type} (p : String × α) (rest : List (String × α)) (q : String) :
    lookupKey (p :: rest) q = if p.1 = q then some p.2 else lookupKey rest q := by
  obtain ⟨a, b⟩ := p
  rfl

/-- In the replace-in-place branch of `setKey`, the written key maps to the
written value. -/
theorem lookupKey_map_set {α : Type} (k : String) (v : α) (m : List (String × α))
    (h : m.any (fun p => p.1 = k) = true) :
    lookupKey (m.map (fun p => if p.1 = k then (k, v) else p)) k = some v := by
  induction m with
  | nil => simp at h
  | cons p rest ih =>
    rw [List.map_cons]
    by_cases hp : p.1 = k
    · rw [if_pos hp, lookupKey_cons]
      simp
    · rw [if_neg hp, lookupKey_cons, if_neg hp]
      refine ih ?_
      have h' : p.1 = k ∨ rest.any (fun p => p.1 = k) = true := by simpa using h
      rcases h' with h1 | h1
      · exact absurd h1 hp
      · exact h1

/-- In the append branch of `setKey`, the written key maps to the written
value. -/
theorem lookupKey_append_set {α : Type} (k : String) (v : α) (m : List (String × α))
    (h : m.any (fun p => p.1 = k) = false) :
    lookupKey (m ++ [(k, v)]) k = some v := by
  induction m with
  | nil => simp [lookupKey]
  | cons p rest ih =>
    rw [List.any_cons] at h
    rcases Bool.or_eq_false_iff.mp h with ⟨h1, h2⟩
    have hp : ¬ p.1 = k := by simpa using h1
    rw [List.cons_append, lookupKey_cons, if_neg hp]
    exact ih h2

/-- Looking up the written key after `setKey` yields the written value. -/
theorem lookupKey_setKey_self {α : Type} (m : List (String × α)) (k : String) (v : α) :
    lookupKey (setKey m k v) k = some v := by
  unfold setKey
  by_cases h : m.any (fun p => p.1 = k) = true
  · rw [if_pos h]
    exact lookupKey_map_set k v m h
  · rw [if_neg h]
    exact lookupKey_append_set k v m (Bool.eq_false_iff.mpr h)

/-- `setKey` does not disturb the binding of any other key. -/
theorem lookupKey_setKey_ne {α : Type} (m : List (String × α)) (k : String) (v : α)
    (q : String) (hq : q ≠ k) :
    lookupKey (setKey m k v) q = lookupKey m q := by
  have hkq : ¬ k = q := fun habs => hq habs.symm
  unfold setKey
  by_cases h : m.any (fun p => p.1 = k) = true
  · rw [if_pos h]
    clear h
    induction m with
    | nil => rfl
    | cons p rest ih =>
      rw [List.map_cons, lookupKey_cons]
      by_cases hp : p.1 = k
      · rw [if_pos hp]
        show (if k = q then some v else _) = _
        rw [if_neg hkq, lookupKey_cons, if_neg (hp ▸ hkq : ¬ p.1 = q)]
        exact ih
      · rw [if_neg hp, lookupKey_cons]
        by_cases hpq : p.1 = q
        · rw [if_pos hpq, if_pos hpq]
        · rw [if_neg hpq, if_neg hpq]
          exact ih
  · rw [if_neg h]
    clear h
    induction m with
    | nil =>
      show lookupKey [(k, v)] q = none
      rw [lookupKey_cons, if_neg hkq]
      rfl
    | cons p rest ih =>
      rw [List.cons_append, lookupKey_cons, lookupKey_cons]
      by_cases hpq : p.1 = q
      · rw [if_pos hpq, if_pos hpq]
      · rw [if_neg hpq, if_neg hpq]
        exact ih

/-- Inserting an order keeps the list a permutation of consing it. -/
theorem insertDesc_perm (o : Order) (l : List Order) :
    (insertDesc o l).Perm (o :: l) := by
  induction l with
  | nil => simp [insertDesc]
  | cons x xs ih =>
    unfold insertDesc
    by_cases h : x.createdAt.time ≤ o.createdAt.time
    · rw [if_pos h]
    · rw [if_neg h]
      exact ((ih.cons x).trans (List.Perm.swap o x xs))

/-- The stable sort is a permutation of its input. -/
theorem sortByCreatedAtDesc_perm (l : List Order) :
    (sortByCreatedAtDesc l).Perm l := by
  induction l with
  | nil => simp [sortByCreatedAtDesc]
  | cons x xs ih =>
    exact (insertDesc_perm x (sortByCreatedAtDesc xs)).trans (ih.cons x)

/-- Inserting into a descending list keeps it descending. -/
theorem insertDesc_pairwise (o : Order) (l : List Order)
    (h : l.Pairwise (fun a b => b.createdAt.time ≤ a.createdAt.time)) :
    (insertDesc o l).Pairwise (fun a b => b.createdAt.time ≤ a.createdAt.time) := by
  induction l with
  | nil => simp [insertDesc]
  | cons x xs ih =>
    rcases List.pairwise_cons.mp h with ⟨hx, hxs⟩
    unfold insertDesc
    by_cases hcmp : x.createdAt.time ≤ o.createdAt.time
    · rw [if_pos hcmp]
      refine List.pairwise_cons.mpr ⟨?_, h⟩
      intro y hy
      rcases List.mem_cons.mp hy with hy1 | hy1
      · simpa [hy1] using hcmp
      · exact le_trans (hx y hy1) hcmp
    · rw [if_neg hcmp]
      refine List.pairwise_cons.mpr ⟨?_, ih hxs⟩
      intro y hy
      have hmem : y ∈ o :: xs := (insertDesc_perm o xs).mem_iff.mp hy
      rcases List.mem_cons.mp hmem with hy2 | hy2
      · have hlt : o.createdAt.time < x.createdAt.time := lt_of_not_le hcmp
        simpa [hy2] using le_of_lt hlt
      · exact hx y hy2

/-- The sorted list is descending by creation time. -/
theorem sortByCreatedAtDesc_pairwise (l : List Order) :
    (sortByCreatedAtDesc l).Pairwise (fun a b => b.createdAt.time ≤ a.createdAt.time) := by
  induction l with
  | nil => simp [sortByCreatedAtDesc]
  | cons x xs ih => exact insertDesc_pairwise x _ ih

/-- Insertion never reorders the elements of any fixed creation time: every
element skipped on the way to the insertion point is strictly newer than
the inserted one. -/
theorem filter_time_insertDesc (o : Order) (l : List Order) (t : Nat) :
    (insertDesc o l).filter (fun x => x.createdAt.time = t) =
      if o.createdAt.time = t then o :: l.filter (fun x => x.createdAt.time = t)
      else l.filter (fun x => x.createdAt.time = t) := by
  induction l with
  | nil =>
    by_cases h : o.createdAt.time = t
    · simp [insertDesc, List.filter_cons, h]
    · simp [insertDesc, List.filter_cons, h]
  | cons x xs ih =>
    unfold insertDesc
    by_cases hcmp : x.createdAt.time ≤ o.createdAt.time
    · rw [if_pos hcmp]
      by_cases ho : o.createdAt.time = t
      · by_cases hx : x.createdAt.time = t
        · simp [List.filter_cons, ho, hx]
        · simp [List.filter_cons, ho, hx]
      · by_cases hx : x.createdAt.time = t
        · simp [List.filter_cons, ho, hx]
        · simp [List.filter_cons, ho, hx]
    · rw [if_neg hcmp]
      have hlt : o.createdAt.time < x.createdAt.time := lt_of_not_le hcmp
      by_cases ho : o.createdAt.time = t
      · have hx : ¬ x.createdAt.time = t := by
          intro habs
          rw [ho] at hlt
          rw [habs] at hlt
          exact lt_irrefl t hlt
        simp [List.filter_cons, hx, ih, ho]
      · by_cases hx : x.createdAt.time = t
        · simp [List.filter_cons, hx, ih, ho]
        · simp [List.filter_cons, hx, ih, ho]

/-- Stability of the sort: the sublist at any fixed creation time is
exactly the input's sublist at that time, in input order. -/
theorem filter_time_sort (l : List Order) (t : Nat) :
    (sortByCreatedAtDesc l).filter (fun x => x.createdAt.time = t) =
      l.filter (fun x => x.createdAt.time = t) := by
  induction l with
  | nil => simp [sortByCreatedAtDesc]
  | cons x xs ih =>
    show (insertDesc x (sortByCreatedAtDesc xs)).filter _ = _
    rw [filter_time_insertDesc]
    by_cases hx : x.createdAt.time = t
    · simp [List.filter_cons, hx, ih]
    · simp [List.filter_cons, hx, ih]

/-- Rebuilding a string from its character data is the identity. -/
theorem string_mk_data (s : String) : String.mk s.data = s := by
  cases s
  rfl

/-- A string without a newline splits into the single line it is. -/
theorem splitNl_no_nl (cs : List Char) (h : '\n' ∉ cs) : splitNl cs = [cs] := by
  induction cs with
  | nil => rfl
  | cons c cs ih =>
    have hc : ¬ c = '\n' := fun habs => h (by simp [habs])
    have hcs : '\n' ∉ cs := fun habs => h (List.mem_cons_of_mem _ habs)
    show (if c = '\n' then _ else _) = _
    rw [if_neg hc, ih hcs]

/-- Splitting across an explicit newline peels off the newline-free prefix
as one line. -/
theorem splitNl_append (a b : List Char) (h : '\n' ∉ a) :
    splitNl (a ++ '\n' :: b) = a :: splitNl b := by
  induction a with
  | nil =>
    show (if '\n' = '\n' then _ else _) = _
    rw [if_pos rfl]
  | cons c cs ih =>
    have hc : ¬ c = '\n' := fun habs => h (by simp [habs])
    have hcs : '\n' ∉ cs := fun habs => h (List.mem_cons_of_mem _ habs)
    rw [List.cons_append]
    show (if c = '\n' then _ else _) = _
    rw [if_neg hc, ih hcs]

/-- Newline-joining newline-free parts and splitting again is the
identity. -/
theorem linesOf_joinWith (parts : List String) (h : ∀ p ∈ parts, '\n' ∉ p.data)
    (hne : parts ≠ []) :
    linesOf (joinWith "\n" parts) = parts := by
  induction parts with
  | nil => exact absurd rfl hne
  | cons x rest ih =>
    cases rest with
    | nil =>
      show linesOf x = [x]
      unfold linesOf
      rw [splitNl_no_nl x.data (h x (by simp))]
      simp [string_mk_data]
    | cons y ys =>
      show linesOf (x ++ "\n" ++ joinWith "\n" (y :: ys)) = x :: y :: ys
      unfold linesOf
      have hdata : (x ++ "\n" ++ joinWith "\n" (y :: ys)).data =
          x.data ++ '\n' :: (joinWith "\n" (y :: ys)).data := by
        rw [String.data_append, String.data_append, List.append_assoc]
        rfl
      rw [hdata, splitNl_append _ _ (h x (by simp)), List.map_cons, string_mk_data]
      have hrest := ih (fun p hp => h p (List.mem_cons_of_mem _ hp)) (by simp)
      unfold linesOf at hrest
      rw [hrest]

/-- Comma-joining newline-free fields yields a newline-free row. -/
theorem joinWith_comma_no_nl (fields : List String)
    (h : ∀ f ∈ fields, '\n' ∉ f.data) :
    '\n' ∉ (joinWith "," fields).data := by
  induction fields with
  | nil => simp [joinWith]
  | cons f rest ih =>
    cases rest with
    | nil => exact h f (by simp)
    | cons g gs =>
      show '\n' ∉ ((f ++ ",") ++ joinWith "," (g :: gs)).data
      rw [String.data_append, String.data_append]
      intro hmem
      rcases List.mem_append.mp hmem with hmem1 | hmem1
      · rcases List.mem_append.mp hmem1 with h2 | h2
        · exact h f (by simp) h2
        · simp at h2
      · exact ih (fun f hf => h f (List.mem_cons_of_mem _ hf)) hmem1

/-! ## Claim theorems -/

/-- C5: `projectItems()` (realized by `getOrderItems`) emits exactly one
`OrderItem` per `(selection, sizeKey)` pair whose quantity is strictly
positive — the projection is the per-selection filter-then-map of the
quantity entries, concatenated in selection order — so a selection all of
whose quantities are non-positive contributes zero entries, and each
emitted item's style number is the selection's style number with fallback
to the live product's style number when the selection's own is blank. -/
theorem c5_projectItems_characterization (products : List Product) (sels : Selections) :
    getOrderItems products sels =
      (sels.map (fun ks => projectedOf products ks.2)).flatten ∧
    (∀ (pre post : Selections) (k : String) (sel : ProductSelection),
      (∀ sq ∈ sel.quantities, sq.2 ≤ 0) →
      getOrderItems products (pre ++ (k, sel) :: post) =
        getOrderItems products (pre ++ post)) ∧
    (∀ ks ∈ sels, ∀ item ∈ projectedOf products ks.2,
      item.styleNumber =
        if ks.2.styleNumber = "" then
          ((products.find? (fun p => p.id = ks.2.productId)).map Product.styleNumber).getD ""
        else ks.2.styleNumber) := by
  refine ⟨getOrderItems_eq products sels, ?_, ?_⟩
  · intro pre post k sel hzero
    rw [getOrderItems_eq, getOrderItems_eq]
    have hfilter : sel.quantities.filter (fun sq => 0 < sq.2) = [] := by
      apply List.filter_eq_nil_iff.mpr
      intro sq hsq
      simp only [decide_eq_true_eq]
      exact not_lt.mpr (hzero sq hsq)
    have hproj : projectedOf products sel = [] := by
      unfold projectedOf
      rw [hfilter]
      rfl
    simp [hproj]
  · intro ks _ item hitem
    unfold projectedOf at hitem
    rcases List.mem_map.mp hitem with ⟨sq, _, rfl⟩
    show styleOf products ks.2 = _
    unfold styleOf
    rfl

/-- Witness for C5: a selection whose quantities are all zero contributes
no entries to the projection. -/
theorem c5_witness :
    (∀ sq ∈ selAllZero.quantities, sq.2 ≤ 0) ∧
    getOrderItems [productP1] [("P1", selAllZero)] = [] := by
  refine ⟨by decide, ?_⟩
  have h := (c5_projectItems_characterization [productP1] ([] : Selections)).2.1
    [] [] "P1" selAllZero (by decide)
  simpa [getOrderItems, getOrderItemsLoop] using h

/-- C6: `totalQuantity()` (realized by `totalItems`, embedded as
`totalItemsOf`) equals the sum of the quantity fields over the list
returned by the projection; it is defined as that fold over
`getOrderItems` and not computed independently. -/
theorem c6_total_eq_sum (products : List Product) (sels : Selections) :
    totalItemsOf products sels = ((getOrderItems products sels).map OrderItem.quantity).sum := by
  unfold totalItemsOf
  simpa using foldl_add_quantity (getOrderItems products sels) 0

/-- C10: every item returned by the projection has strictly positive
quantity, for every selection state — including states holding negative
quantities stored unclamped from explicit negative input — so non-positive
stored quantities never appear in a submitted order. -/
theorem c10_projected_positive (products : List Product) (sels : Selections)
    (item : OrderItem) (h : item ∈ getOrderItems products sels) :
    0 < item.quantity := by
  rw [getOrderItems_eq] at h
  rcases List.mem_flatten.mp h with ⟨l, hl, hitem⟩
  rcases List.mem_map.mp hl with ⟨ks, _, rfl⟩
  unfold projectedOf at hitem
  rcases List.mem_map.mp hitem with ⟨sq, hsq, rfl⟩
  have hpos := (List.mem_filter.mp hsq).2
  simpa using hpos

/-- Witness for C10: from the state reached by typing 5 for size M and -3
for size S, the projected item for size M is a member of the projection
and its quantity is positive (and the -3 entry is stored but projected
away). -/
theorem c10_witness :
    itemC1 ∈ getOrderItems [productP1] selsC10 ∧
    lookupKey selsC10 "P1" = some selC10stored ∧
    0 < itemC1.quantity := by
  have hmem : itemC1 ∈ getOrderItems [productP1] selsC10 := by decide
  exact ⟨hmem, by decide, c10_projected_positive [productP1] selsC10 itemC1 hmem⟩

/-- C9: `setColor` (realized by `handleColorChange`) preserves an existing
selection's quantities, creates the selection with empty quantities when
absent, and leaves every other product's selection untouched. -/
theorem c9_setColor_preserves_quantities (p : Product) (color : String) (sels : Selections) :
    (∀ q, q ≠ p.id → lookupKey (handleColorChange p color sels) q = lookupKey sels q) ∧
    (∀ sel, lookupKey sels p.id = some sel →
      lookupKey (handleColorChange p color sels) p.id =
        some (colorChangedSelection p color sel.quantities)) ∧
    (lookupKey sels p.id = none →
      lookupKey (handleColorChange p color sels) p.id =
        some (colorChangedSelection p color [])) := by
  refine ⟨?_, ?_, ?_⟩
  · intro q hq
    exact lookupKey_setKey_ne sels p.id _ q hq
  · intro sel hsel
    unfold handleColorChange
    rw [lookupKey_setKey_self, hsel]
    rfl
  · intro hnone
    unfold handleColorChange
    rw [lookupKey_setKey_self, hnone]
    rfl

/-- Witness for C9: changing the color of the already-selected product P1
keeps its stored quantities and leaves the lookup of another id unchanged;
changing the color of a product with no selection creates one with empty
quantities. -/
theorem c9_witness :
    ("P2" ≠ productP1.id) ∧
    lookupKey (handleColorChange productP1 "white" [("P1", selP1)]) "P2" =
      lookupKey [("P1", selP1)] "P2" ∧
    (lookupKey [("P1", selP1)] productP1.id = some selP1) ∧
    lookupKey (handleColorChange productP1 "white" [("P1", selP1)]) productP1.id =
      some (colorChangedSelection productP1 "white" selP1.quantities) ∧
    (lookupKey ([] : Selections) productP1.id = none) ∧
    lookupKey (handleColorChange productP1 "white" []) productP1.id =
      some (colorChangedSelection productP1 "white" []) := by
  have h1 := c9_setColor_preserves_quantities productP1 "white" [("P1", selP1)]
  have h2 := c9_setColor_preserves_quantities productP1 "white" ([] : Selections)
  refine ⟨by decide, h1.1 "P2" (by decide), by decide, h1.2.1 selP1 (by decide), by decide,
    h2.2.2 (by decide)⟩

/-- C7: `load()` (realized by `loadOrders`) stores the fetched orders
sorted by `createdAt` descending, as a permutation of the input with ties
broken by stable input order (the sublist at each fixed timestamp is the
input's sublist, in input order); in particular the inputs timestamped
2024-01-01, 2024-03-01, 2024-02-01 are stored as [T2, T3, T1]. -/
theorem c7_load_sorted_stable (fetched : List Order) :
    (loadOrders fetched).Perm fetched ∧
    (loadOrders fetched).Pairwise (fun a b => b.createdAt.time ≤ a.createdAt.time) ∧
    (∀ t, (loadOrders fetched).filter (fun x => x.createdAt.time = t) =
      fetched.filter (fun x => x.createdAt.time = t)) ∧
    loadOrders [orderT1, orderT2, orderT3] = [orderT2, orderT3, orderT1] := by
  refine ⟨sortByCreatedAtDesc_perm fetched, sortByCreatedAtDesc_pairwise fetched,
    fun t => filter_time_sort fetched t, by decide⟩

/-- C4: submitting with a zero projected total, or with a blank (empty or
whitespace-only) trimmed PO number, never invokes the order-creation
collaborator; the zero-total case surfaces the no-items toast with the
state unchanged, the blank-PO case (with items present) sets the PO-required
field error and nothing else, and in both cases the workflow stays in Idle. -/
theorem c4_validation_blocks (products : List Product) (st : DashState)
    (result : Except String Order) :
    (totalItemsOf products st.selections = 0 →
      handleSubmitOrder products st result =
        ⟨st, none, [Toast.error "Please add quantities to at least one product"]⟩) ∧
    (trimJS st.poNumber = "" → (handleSubmitOrder products st result).request = none) ∧
    (totalItemsOf products st.selections ≠ 0 → trimJS st.poNumber = "" →
      handleSubmitOrder products st result =
        ⟨{ st with poError := "PO Number is required" }, none, []⟩) := by
  refine ⟨?_, ?_, ?_⟩
  · intro h
    simp [handleSubmitOrder, h]
  · intro h
    by_cases h0 : totalItemsOf products st.selections = 0
    · simp [handleSubmitOrder, h0]
    · simp [handleSubmitOrder, h0, h]
  · intro h0 h
    simp [handleSubmitOrder, h0, h]

/-- Witness for C4: the empty-selection state is rejected with the
no-items toast and no request; the whitespace-PO state with items is
rejected with the PO-required field error and no request. -/
theorem c4_witness :
    (totalItemsOf [productP1] stNoItems.selections = 0) ∧
    handleSubmitOrder [productP1] stNoItems (Except.ok orderReturned) =
      ⟨stNoItems, none, [Toast.error "Please add quantities to at least one product"]⟩ ∧
    (totalItemsOf [productP1] stBlankPo.selections ≠ 0) ∧
    (trimJS stBlankPo.poNumber = "") ∧
    handleSubmitOrder [productP1] stBlankPo (Except.ok orderReturned) =
      ⟨{ stBlankPo with poError := "PO Number is required" }, none, []⟩ := by
  have h1 := (c4_validation_blocks [productP1] stNoItems (Except.ok orderReturned)).1 (by decide)
  have h2 := (c4_validation_blocks [productP1] stBlankPo (Except.ok orderReturned)).2.2
    (by decide) (by decide)
  exact ⟨by decide, h1, by decide, by decide, h2⟩

/-- C3: when the submission passes validation, a successful collaborator
result leaves the selection model empty and the PO number field empty,
while a failed collaborator result leaves both exactly at their pre-submit
values. -/
theorem c3_success_clears_failure_preserves (products : List Product) (st : DashState)
    (h0 : totalItemsOf products st.selections ≠ 0) (hpo : trimJS st.poNumber ≠ "") :
    (∀ o : Order,
      (handleSubmitOrder products st (Except.ok o)).state.selections = [] ∧
      (handleSubmitOrder products st (Except.ok o)).state.poNumber = "") ∧
    (∀ msg,
      (handleSubmitOrder products st (Except.error msg)).state.selections = st.selections ∧
      (handleSubmitOrder products st (Except.error msg)).state.poNumber = st.poNumber) := by
  constructor
  · intro o
    constructor
    · simp [handleSubmitOrder, h0, hpo]
    · simp [handleSubmitOrder, h0, hpo]
  · intro msg
    constructor
    · simp [handleSubmitOrder, h0, hpo]
    · simp [handleSubmitOrder, h0, hpo]

/-- Witness for C3: on the concrete valid state, success empties the
selections and PO number; failure leaves both as they were. -/
theorem c3_witness :
    (totalItemsOf [productP1] stC1.selections ≠ 0) ∧
    (trimJS stC1.poNumber ≠ "") ∧
    (handleSubmitOrder [productP1] stC1 (Except.ok orderReturned)).state.selections = [] ∧
    (handleSubmitOrder [productP1] stC1 (Except.ok orderReturned)).state.poNumber = "" ∧
    (handleSubmitOrder [productP1] stC1 (Except.error "network down")).state.selections =
      stC1.selections ∧
    (handleSubmitOrder [productP1] stC1 (Except.error "network down")).state.poNumber =
      stC1.poNumber := by
  have h := c3_success_clears_failure_preserves [productP1] stC1 (by decide) (by decide)
  exact ⟨by decide, by decide, (h.1 orderReturned).1, (h.1 orderReturned).2,
    (h.2 "network down").1, (h.2 "network down").2⟩

/-- Counterexample for C1: on a concrete successful submission the wire
request body contains a client-computed `totalItems` field (value 5, the
sum of the submitted quantities), so its key list is not just
`poNumber, items` — the client does send a totalItems value. -/
theorem c1_counterexample :
    (handleSubmitOrder [productP1] stC1 (Except.ok orderReturned)).request =
      some (createOrderBody "PO-100" [itemC1]) ∧
    ("totalItems", BodyVal.n 5) ∈ createOrderBody "PO-100" [itemC1] ∧
    (createOrderBody "PO-100" [itemC1]).map Prod.fst ≠ ["poNumber", "items"] := by
  refine ⟨by decide, by decide, by decide⟩

/-- C1 (amended): whenever the order-creation collaborator is invoked, the
request is built from the trimmed PO number and the projected items, and
its body consists of exactly the keys `poNumber`, `totalItems`, `items`,
with `totalItems` computed in the client API layer as the sum of the
quantities of the very items sent. -/
theorem c1_amended_request (products : List Product) (st : DashState)
    (result : Except String Order) (req : List (String × BodyVal))
    (h : (handleSubmitOrder products st result).request = some req) :
    req = createOrderBody (trimJS st.poNumber) (getOrderItems products st.selections) ∧
    req.map Prod.fst = ["poNumber", "totalItems", "items"] ∧
    ("poNumber", BodyVal.s (trimJS st.poNumber)) ∈ req ∧
    ("items", BodyVal.items (getOrderItems products st.selections)) ∈ req ∧
    ("totalItems",
      BodyVal.n (((getOrderItems products st.selections).map OrderItem.quantity).sum)) ∈ req := by
  have hreq : req = createOrderBody (trimJS st.poNumber) (getOrderItems products st.selections) := by
    unfold handleSubmitOrder at h
    by_cases h0 : totalItemsOf products st.selections = 0
    · simp [h0] at h
    · by_cases hpo : trimJS st.poNumber = ""
      · simp [h0, hpo] at h
      · cases result with
        | ok o =>
          simp [h0, hpo] at h
          exact h.symm
        | error msg =>
          simp [h0, hpo] at h
          exact h.symm
  subst hreq
  have hsum := foldl_add_quantity (getOrderItems products st.selections) 0
  rw [zero_add] at hsum
  refine ⟨rfl, rfl, ?_, ?_, ?_⟩
  · simp [createOrderBody]
  · simp [createOrderBody]
  · simp [createOrderBody, hsum]

/-- Witness for C1 (amended): the concrete submission issues the request
built from the trimmed PO and projected items, and its key list is
`poNumber, totalItems, items`. -/
theorem c1_witness :
    ((handleSubmitOrder [productP1] stC1 (Except.ok orderReturned)).request =
      some (createOrderBody (trimJS stC1.poNumber) (getOrderItems [productP1] stC1.selections))) ∧
    (createOrderBody (trimJS stC1.poNumber)
      (getOrderItems [productP1] stC1.selections)).map Prod.fst =
      ["poNumber", "totalItems", "items"] := by
  have h : (handleSubmitOrder [productP1] stC1 (Except.ok orderReturned)).request =
      some (createOrderBody (trimJS stC1.poNumber) (getOrderItems [productP1] stC1.selections)) := by
    decide
  exact ⟨h, (c1_amended_request [productP1] stC1 (Except.ok orderReturned) _ h).2.1⟩

/-- Counterexample for C2: changing the concrete pending order's status to
shipped emits no collaborator call at all (every emitted effect is a
non-API effect and the effect list is exactly the success toast), yet the
in-memory list already shows the new status — so the update is not gated
on a status-update collaborator call, and success is reported without
collaborator confirmation. -/
theorem c2_counterexample :
    ((handleStatusChange adminStC2 "o1" "shipped").2.all (fun e => !e.isApi) = true) ∧
    (handleStatusChange adminStC2 "o1" "shipped").2 =
      [AdminEffect.toastSuccess "Order status updated successfully"] ∧
    (handleStatusChange adminStC2 "o1" "shipped").1.orders.map Order.status = ["shipped"] ∧
    orderPendingC2.status = "pending" := by
  refine ⟨by decide, by decide, by decide, by decide⟩

/-- C2 (amended): `setStatus` (realized by `handleStatusChange`) performs a
purely local, unconditional update: it makes no collaborator call, it sets
the matching order's status in the in-memory list (leaving non-matching
orders unchanged and the list length fixed), it updates an open detail
view exactly when its id matches, and it always reports success. -/
theorem c2_amended_local_update (st : AdminState) (orderId newStatus : String) :
    ((handleStatusChange st orderId newStatus).2.all (fun e => !e.isApi) = true) ∧
    (AdminEffect.toastSuccess "Order status updated successfully" ∈
      (handleStatusChange st orderId newStatus).2) ∧
    ((handleStatusChange st orderId newStatus).1.orders.length = st.orders.length) ∧
    (∀ o ∈ st.orders, o.id ≠ orderId →
      o ∈ (handleStatusChange st orderId newStatus).1.orders) ∧
    (∀ o ∈ st.orders, o.id = orderId →
      { o with status := newStatus } ∈ (handleStatusChange st orderId newStatus).1.orders) ∧
    (∀ sel, st.selectedOrder = some sel → sel.id = orderId →
      (handleStatusChange st orderId newStatus).1.selectedOrder =
        some { sel with status := newStatus }) ∧
    (∀ sel, st.selectedOrder = some sel → sel.id ≠ orderId →
      (handleStatusChange st orderId newStatus).1.selectedOrder = some sel) := by
  refine ⟨rfl, ?_, ?_, ?_, ?_, ?_, ?_⟩
  · simp [handleStatusChange]
  · simp [handleStatusChange]
  · intro o ho hne
    have hmem := List.mem_map_of_mem
      (fun o => if o.id = orderId then { o with status := newStatus } else o) ho
    simp only [if_neg hne] at hmem
    exact hmem
  · intro o ho hid
    have hmem := List.mem_map_of_mem
      (fun o => if o.id = orderId then { o with status := newStatus } else o) ho
    simp only [if_pos hid] at hmem
    exact hmem
  · intro sel hsel hid
    simp [handleStatusChange, hsel, hid]
  · intro sel hsel hne
    simp [handleStatusChange, hsel, hne]

/-- Witness for C2 (amended): on the concrete state, the shipped version
of the pending order is in the updated list and no API effect was
emitted. -/
theorem c2_witness :
    (orderPendingC2 ∈ adminStC2.orders) ∧ (orderPendingC2.id = "o1") ∧
    ({ orderPendingC2 with status := "shipped" } ∈
      (handleStatusChange adminStC2 "o1" "shipped").1.orders) ∧
    ((handleStatusChange adminStC2 "o1" "shipped").2.all (fun e => !e.isApi) = true) := by
  have h := c2_amended_local_update adminStC2 "o1" "shipped"
  exact ⟨by decide, by decide, h.2.2.2.2.1 orderPendingC2 (by decide) (by decide), h.1⟩

/-- C8: the CSV export of the current filtered order list is the fixed
header line `Order ID,Customer,PO Number,Items,Status,Date` followed by
one comma-joined row per order with fields in that column order and the
date as `yyyy-MM-dd`, so an n-order list yields n + 1 lines; field values
are concatenated verbatim, with no quoting or escaping of delimiters. -/
theorem c8_csv_shape (orders : List Order)
    (h : ∀ o ∈ orders, ∀ f ∈ orderRowFields o, '\n' ∉ f.data) :
    linesOf (csvContent orders) =
      joinWith "," csvHeaders :: orders.map (fun o => joinWith "," (orderRowFields o)) ∧
    joinWith "," csvHeaders = "Order ID,Customer,PO Number,Items,Status,Date" ∧
    (linesOf (csvContent orders)).length = orders.length + 1 ∧
    (∀ o : Order, joinWith "," (orderRowFields o) =
      o.id ++ "," ++ o.customerName ++ "," ++ o.poNumber ++ "," ++ toString o.totalItems ++
        "," ++ o.status ++ "," ++ formatYMD o.createdAt) := by
  have hparts : ∀ p ∈ joinWith "," csvHeaders ::
      orders.map (fun o => joinWith "," (orderRowFields o)), '\n' ∉ p.data := by
    intro p hp
    rcases List.mem_cons.mp hp with hp1 | hp1
    · subst hp1
      decide
    · rcases List.mem_map.mp hp1 with ⟨o, ho, rfl⟩
      exact joinWith_comma_no_nl (orderRowFields o) (h o ho)
  have hmain := linesOf_joinWith
    (joinWith "," csvHeaders :: orders.map (fun o => joinWith "," (orderRowFields o)))
    hparts (by simp)
  refine ⟨hmain, by decide, ?_, ?_⟩
  · unfold csvContent
    unfold csvContent at hmain
    rw [hmain]
    simp
  · intro o
    simp [joinWith, orderRowFields, String.append_assoc]

/-- Witness for C8: the concrete 2-order list (with distinct statuses)
exports as exactly 3 lines. -/
theorem c8_witness :
    (∀ o ∈ [orderCsvA, orderCsvB], ∀ f ∈ orderRowFields o, '\n' ∉ f.data) ∧
    (orderCsvA.status ≠ orderCsvB.status) ∧
    (linesOf (csvContent [orderCsvA, orderCsvB])).length = 3 := by
  have hh : ∀ o ∈ [orderCsvA, orderCsvB], ∀ f ∈ orderRowFields o, '\n' ∉ f.data := by decide
  exact ⟨hh, by decide, (c8_csv_shape [orderCsvA, orderCsvB] hh).2.2.1⟩
